import Mathlib

/-!
# Verification of the DDPOptimizer graph-bucketing engine

Shallow embedding of `torch/_dynamo/optimizations/distributed.py`
(class `DDPOptimizer`, its bucketing loop in `compile_fn`, the
`SubmodCompiler` interpreter with `compile_submod` and `run_node`),
together with theorems settling the specification claims about it.
-/

/-- The operation kind of an FX graph node (`node.op` in the source:
one of `"placeholder"`, `"output"`, `"call_module"`, `"get_attr"`,
`"call_function"`, `"call_method"`). -/
inductive NodeOp where
  | placeholder
  | output
  | call_module
  | get_attr
  | call_function
  | call_method
deriving DecidableEq, Repr

/-- A parameter tensor as the bucketing loop observes it: its element
count and per-element byte width (for a leaf `nn.Parameter`, which owns
its storage, `p._storage().nbytes() = numel * element_size`), its
`requires_grad` flag, the optional `_ddp_ignored` marker attribute
(`none` models the attribute being absent), and its Python object
identity `id(param)`. -/
structure Param where
  numel : Nat
  itemsize : Nat
  requiresGrad : Bool
  ddpIgnored : Option Bool
  pid : Nat
deriving DecidableEq, Repr

/-- `p._storage().nbytes()` for a parameter tensor that owns its
storage: element count times per-element byte width. -/
def Param.storageNBytes (p : Param) : Nat := p.numel * p.itemsize

/-- `DDPOptimizer._ignore_parameter`:
`hasattr(parameter, "_ddp_ignored") and parameter._ddp_ignored`. -/
def ignoreParameter (p : Param) : Bool := p.ddpIgnored.getD false

/-- An FX node argument: a reference to another node, an integer
literal, or a tuple of arguments (`sn.args` entries in the source). -/
inductive Arg where
  | node : String → Arg
  | litInt : Int → Arg
  | tup : List Arg → Arg

/-- An FX graph node: unique name, operation kind, target string, and
positional/keyword arguments. -/
structure FxNode where
  name : String
  op : NodeOp
  target : String
  args : List Arg := []
  kwargs : List (String × Arg) := []

/-- An FX `GraphModule` as the bucketing loop consumes it: the graph's
node list in construction order, `target.named_parameters()` for each
submodule target (with `get_parameter(name)` returning the same
object), and `getattr(gm, target)` for attribute targets. -/
structure FxGraphModule where
  nodes : List FxNode
  params : String → List (String × Param)
  attrs : String → Param

/-- The `Bucket` dataclass of the source: cumulative byte size,
recorded qualified parameter names, recorded parameter identities, and
the member nodes assigned to this bucket. -/
structure Bucket where
  size : Nat := 0
  params : List String := []
  param_ids : List Nat := []
  nodes : List FxNode := []

instance : Inhabited Bucket := ⟨{}⟩

/-- A fresh empty bucket, `Bucket()`. -/
def Bucket.empty : Bucket := {}

/-- One parameter's accounting inside the bucketing loop:
`buckets[0].size += p._storage().nbytes()`,
`buckets[0].params.append(qname)`,
`buckets[0].param_ids.append(id(param))`. -/
def addParam (b : Bucket) (qname : String) (p : Param) : Bucket :=
  { b with
    size := b.size + p.storageNBytes
    params := b.params ++ [qname]
    param_ids := b.param_ids ++ [p.pid] }

/-- The `call_module` branch of the bucketing loop: iterate
`target.named_parameters()` and account each parameter that requires
grad and is not DDP-ignored, under the qualified name
`f"{node.target}_{name}"`. -/
def processCallModule (gm : FxGraphModule) (target : String) (b : Bucket) : Bucket :=
  (gm.params target).foldl
    (fun b np =>
      if np.2.requiresGrad && !ignoreParameter np.2 then
        addParam b (target ++ "_" ++ np.1) np.2
      else b) b

/-- The `get_attr` branch of the bucketing loop: resolve
`getattr(gm, node.target)` and account it (under the node's own target
as name) when it requires grad and is not DDP-ignored. -/
def processGetAttr (gm : FxGraphModule) (target : String) (b : Bucket) : Bucket :=
  let mp := gm.attrs target
  if mp.requiresGrad && !ignoreParameter mp then addParam b target mp else b

/-- Process one (non-skipped) node into the front bucket: dispatch on
the node's op for parameter accounting, then append the node itself to
the bucket's member list (`buckets[0].nodes.append(node)`). -/
def processNode (gm : FxGraphModule) (b : Bucket) (n : FxNode) : Bucket :=
  let b :=
    match n.op with
    | NodeOp.call_module => processCallModule gm n.target b
    | NodeOp.get_attr => processGetAttr gm n.target b
    | _ => b
  { b with nodes := b.nodes ++ [n] }

/-- One iteration of the bucketing loop of `compile_fn` for one node of
the reverse scan: skip `output`/`placeholder` nodes; otherwise, first
check `buckets[0].size >= bucket_bytes_cap or len(buckets) == 1 and
buckets[0].size >= first_bucket_cap` (Python precedence: `A or (B and
C)`) and prepend a fresh bucket if it holds, then account the node into
the front bucket. -/
def bucketStep (gm : FxGraphModule) (bucketBytesCap firstBucketCap : Nat)
    (buckets : List Bucket) (node : FxNode) : List Bucket :=
  if node.op = NodeOp.output ∨ node.op = NodeOp.placeholder then buckets
  else
    let buckets :=
      if (buckets.headD default).size ≥ bucketBytesCap ∨
          (buckets.length = 1 ∧ (buckets.headD default).size ≥ firstBucketCap) then
        Bucket.empty :: buckets
      else buckets
    processNode gm (buckets.headD default) node :: buckets.tail

/-- The bucket-computation step of `DDPOptimizer.compile_fn` (source
lines 149–180): start from `[Bucket()]` and fold `bucketStep` over
`reversed(gm.graph.nodes)`. -/
def buildBuckets (gm : FxGraphModule) (bucketBytesCap firstBucketCap : Nat) :
    List Bucket :=
  gm.nodes.reverse.foldl (bucketStep gm bucketBytesCap firstBucketCap) [Bucket.empty]

/-- A node is eligible for bucketing (not skipped by the scan). -/
def eligibleNode (n : FxNode) : Bool :=
  !(n.op = NodeOp.output ∨ n.op = NodeOp.placeholder : Bool)

-- Concrete graph for the spec's §8 scenario (claim C1): three
-- sequential parameterized call-module nodes of byte sizes 100, 150,
-- 50 in forward construction order.
def paramOf (bytes pid : Nat) : Param :=
  { numel := bytes, itemsize := 1, requiresGrad := true, ddpIgnored := none, pid := pid }

def gmScenario : FxGraphModule where
  nodes :=
    [ { name := "x", op := NodeOp.placeholder, target := "x" },
      { name := "m1", op := NodeOp.call_module, target := "m1" },
      { name := "m2", op := NodeOp.call_module, target := "m2" },
      { name := "m3", op := NodeOp.call_module, target := "m3" },
      { name := "out", op := NodeOp.output, target := "output" } ]
  params := fun t =>
    if t = "m1" then [("w", paramOf 100 1)]
    else if t = "m2" then [("w", paramOf 150 2)]
    else if t = "m3" then [("w", paramOf 50 3)]
    else []
  attrs := fun _ => paramOf 0 0

-- Concrete graph for refuting claim C3: one call-module node whose
-- submodule has three parameters of byte sizes 9, 2, 50, followed (in
-- forward order) by a parameterless call-module node.  With both caps
-- at 10 the first bucket reaches 61 bytes before any closure check can
-- fire again, exceeding the cap by 51 > any single parameter size.
def gmMultiParam : FxGraphModule where
  nodes :=
    [ { name := "x", op := NodeOp.placeholder, target := "x" },
      { name := "b", op := NodeOp.call_module, target := "B" },
      { name := "a", op := NodeOp.call_module, target := "A" },
      { name := "out", op := NodeOp.output, target := "output" } ]
  params := fun t =>
    if t = "A" then [("p", paramOf 9 1), ("q", paramOf 2 2), ("r", paramOf 50 3)]
    else []
  attrs := fun _ => paramOf 0 0

/-- The parameters the bucketing loop counts and records for one node
(qualified name and parameter), read off the two accounting branches:
for `call_module`, the grad-requiring non-ignored entries of
`target.named_parameters()` under `f"{node.target}_{name}"`; for
`get_attr`, the resolved attribute under the node's own target when it
qualifies; nothing otherwise. -/
def nodeSyncParams (gm : FxGraphModule) (n : FxNode) : List (String × Param) :=
  match n.op with
  | NodeOp.call_module =>
      ((gm.params n.target).filter fun np =>
          np.2.requiresGrad && !ignoreParameter np.2).map
        fun np => (n.target ++ "_" ++ np.1, np.2)
  | NodeOp.get_attr =>
      if (gm.attrs n.target).requiresGrad && !ignoreParameter (gm.attrs n.target) then
        [(n.target, gm.attrs n.target)]
      else []
  | _ => []

/-- Total byte size the bucketing loop adds for one node. -/
def nodeContrib (gm : FxGraphModule) (n : FxNode) : Nat :=
  ((nodeSyncParams gm n).map fun q => q.2.storageNBytes).sum

theorem foldl_addParam_spec (target : String) (ps : List (String × Param)) :
    ∀ b : Bucket,
      ps.foldl (fun b np =>
          if np.2.requiresGrad && !ignoreParameter np.2 then
            addParam b (target ++ "_" ++ np.1) np.2
          else b) b =
      { b with
        size := b.size + ((ps.filter fun np =>
            np.2.requiresGrad && !ignoreParameter np.2).map
              fun np => np.2.storageNBytes).sum
        params := b.params ++ ((ps.filter fun np =>
            np.2.requiresGrad && !ignoreParameter np.2).map
              fun np => target ++ "_" ++ np.1)
        param_ids := b.param_ids ++ ((ps.filter fun np =>
            np.2.requiresGrad && !ignoreParameter np.2).map
              fun np => np.2.pid) } := by
  induction ps with
  | nil => intro b; simp
  | cons np ps ih =>
      intro b
      by_cases h : np.2.requiresGrad && !ignoreParameter np.2
      · rw [List.foldl_cons, if_pos h, ih]
        simp only [List.filter_cons, h, if_true, List.map_cons, List.sum_cons, addParam]
        obtain ⟨s, prm, ids, nds⟩ := b
        simp [Nat.add_assoc]
      · rw [List.foldl_cons, if_neg h, ih]
        simp only [List.filter_cons, h, Bool.false_eq_true, if_false]

theorem processNode_spec (gm : FxGraphModule) (b : Bucket) (n : FxNode) :
    processNode gm b n =
      { size := b.size + nodeContrib gm n
        params := b.params ++ (nodeSyncParams gm n).map Prod.fst
        param_ids := b.param_ids ++ (nodeSyncParams gm n).map fun q => q.2.pid
        nodes := b.nodes ++ [n] } := by
  cases hop : n.op
  case call_module =>
      simp only [processNode, hop, processCallModule, foldl_addParam_spec,
        nodeContrib, nodeSyncParams, List.map_map]
      rfl
  case get_attr =>
      by_cases h : (gm.attrs n.target).requiresGrad && !ignoreParameter (gm.attrs n.target)
      · simp [processNode, hop, processGetAttr, h, nodeContrib, nodeSyncParams, addParam]
      · simp [processNode, hop, processGetAttr, h, nodeContrib, nodeSyncParams]
  all_goals simp [processNode, hop, nodeContrib, nodeSyncParams]

/-- The closure condition checked by the loop before accounting a node:
`buckets[0].size >= bucket_bytes_cap or len(buckets) == 1 and
buckets[0].size >= first_bucket_cap`. -/
def closeCond (bucketBytesCap firstBucketCap : Nat) (buckets : List Bucket) : Prop :=
  (buckets.headD default).size ≥ bucketBytesCap ∨
    (buckets.length = 1 ∧ (buckets.headD default).size ≥ firstBucketCap)

instance (cap fc : Nat) (bs : List Bucket) : Decidable (closeCond cap fc bs) := by
  unfold closeCond; infer_instance

theorem bucketStep_spec (gm : FxGraphModule) (cap fc : Nat)
    (bs : List Bucket) (n : FxNode)
    (hel : n.op ≠ NodeOp.output ∧ n.op ≠ NodeOp.placeholder) (hbs : bs ≠ []) :
    ((bucketStep gm cap fc bs n).length = bs.length + 1 ↔ closeCond cap fc bs) ∧
      (closeCond cap fc bs →
        bucketStep gm cap fc bs n = processNode gm Bucket.empty n :: bs) ∧
      (¬closeCond cap fc bs →
        bucketStep gm cap fc bs n = processNode gm (bs.headD default) n :: bs.tail) := by
  obtain ⟨b, bs', rfl⟩ := List.exists_cons_of_ne_nil hbs
  by_cases hc : closeCond cap fc (b :: bs')
  · have hstep : bucketStep gm cap fc (b :: bs') n =
        processNode gm Bucket.empty n :: b :: bs' := by
      unfold bucketStep
      rw [if_neg (by simp [hel.1, hel.2])]
      rw [if_pos (by exact hc)]
      rfl
    refine ⟨?_, fun _ => hstep, fun h => absurd hc h⟩
    simp [hstep]
    exact hc
  · have hstep : bucketStep gm cap fc (b :: bs') n =
        processNode gm ((b :: bs').headD default) n :: (b :: bs').tail := by
      unfold bucketStep
      rw [if_neg (by simp [hel.1, hel.2])]
      rw [if_neg (by exact hc)]
    refine ⟨?_, fun h => absurd h hc, fun _ => hstep⟩
    rw [hstep]
    simp only [List.headD_cons, List.tail_cons, List.length_cons]
    constructor
    · intro h; omega
    · intro h; exact absurd h hc

/-- C2: immediately before accounting an eligible node, a new empty
bucket is prepended at index 0 iff the front bucket's accumulated size
has reached `bucket_bytes_cap`, or there is exactly one bucket and the
front's size has reached `first_bucket_cap`; the check looks only at
the already-accumulated front size (check-before-add), and the node is
then accounted into either the fresh empty front bucket or the
unchanged old front. -/
theorem bucket_closure_rule (gm : FxGraphModule) (cap fc : Nat)
    (bs : List Bucket) (n : FxNode)
    (hel : n.op ≠ NodeOp.output ∧ n.op ≠ NodeOp.placeholder) (hbs : bs ≠ []) :
    ((bucketStep gm cap fc bs n).length = bs.length + 1 ↔ closeCond cap fc bs) ∧
      (closeCond cap fc bs →
        bucketStep gm cap fc bs n = processNode gm Bucket.empty n :: bs) ∧
      (¬closeCond cap fc bs →
        bucketStep gm cap fc bs n = processNode gm (bs.headD default) n :: bs.tail) :=
  bucketStep_spec gm cap fc bs n hel hbs

/-- C2 witness: with a front bucket of 130 accumulated bytes and caps
120/60, processing an eligible node prepends a fresh bucket first. -/
theorem bucket_closure_rule_witness :
    bucketStep gmScenario 120 60 [{ size := 130 }]
        { name := "m1", op := NodeOp.call_module, target := "m1" } =
      processNode gmScenario Bucket.empty
        { name := "m1", op := NodeOp.call_module, target := "m1" } ::
        [{ size := 130 }] :=
  (bucket_closure_rule gmScenario 120 60 [{ size := 130 }]
      { name := "m1", op := NodeOp.call_module, target := "m1" }
      (by simp) (by simp)).2.1 (Or.inl (by simp))

/-- C6: for a call-submodule node, the amount added to the front bucket
is the sum, over the submodule's grad-requiring non-sync-exempt
parameters, of element count times per-element byte width, and those
parameters' qualified names and identities are appended to the front
bucket's records. -/
theorem call_module_accounting (gm : FxGraphModule) (cap fc : Nat)
    (bs : List Bucket) (n : FxNode)
    (hop : n.op = NodeOp.call_module) (hbs : bs ≠ []) :
    ((bucketStep gm cap fc bs n).headD default).size =
        (if closeCond cap fc bs then Bucket.empty else bs.headD default).size +
          (((gm.params n.target).filter fun np =>
              np.2.requiresGrad && !ignoreParameter np.2).map
            fun np => np.2.numel * np.2.itemsize).sum ∧
      ((bucketStep gm cap fc bs n).headD default).params =
        (if closeCond cap fc bs then Bucket.empty else bs.headD default).params ++
          (((gm.params n.target).filter fun np =>
              np.2.requiresGrad && !ignoreParameter np.2).map
            fun np => n.target ++ "_" ++ np.1) ∧
      ((bucketStep gm cap fc bs n).headD default).param_ids =
        (if closeCond cap fc bs then Bucket.empty else bs.headD default).param_ids ++
          (((gm.params n.target).filter fun np =>
              np.2.requiresGrad && !ignoreParameter np.2).map
            fun np => np.2.pid) := by
  have hel : n.op ≠ NodeOp.output ∧ n.op ≠ NodeOp.placeholder := by
    rw [hop]; exact ⟨by simp, by simp⟩
  have hsync : nodeSyncParams gm n =
      ((gm.params n.target).filter fun np =>
          np.2.requiresGrad && !ignoreParameter np.2).map
        fun np => (n.target ++ "_" ++ np.1, np.2) := by
    unfold nodeSyncParams; rw [hop]
  by_cases hc : closeCond cap fc bs
  · rw [(bucketStep_spec gm cap fc bs n hel hbs).2.1 hc]
    simp only [processNode_spec, hc, if_pos, hsync, List.map_map, nodeContrib,
      Param.storageNBytes]
    exact ⟨rfl, rfl, rfl⟩
  · rw [(bucketStep_spec gm cap fc bs n hel hbs).2.2 hc]
    simp only [processNode_spec, hc, if_neg, hsync, List.map_map, nodeContrib,
      Param.storageNBytes, if_false]
    exact ⟨rfl, rfl, rfl⟩

/-- C6 witness: accounting the 150-byte call-module node of the §8
scenario into a front bucket holding 50 bytes (caps 120/60, no closure)
adds exactly `numel * itemsize = 150` bytes and records the qualified
name and identity. -/
theorem call_module_accounting_witness :
    ((bucketStep gmScenario 120 60 [{ size := 50 }]
          { name := "m2", op := NodeOp.call_module, target := "m2" }).headD
        default).size =
      (if closeCond 120 60 [({ size := 50 } : Bucket)] then Bucket.empty
        else ([({ size := 50 } : Bucket)]).headD default).size +
        (((gmScenario.params "m2").filter fun np =>
            np.2.requiresGrad && !ignoreParameter np.2).map
          fun np => np.2.numel * np.2.itemsize).sum :=
  (call_module_accounting gmScenario 120 60 [{ size := 50 }]
      { name := "m2", op := NodeOp.call_module, target := "m2" }
      rfl (by simp)).1

/-- C1 (counterexample): on the spec's §8 scenario — synchronizable
sizes 100, 150, 50 bytes in forward order (50, 150, 100 in reverse scan
order), `bucket_bytes_cap = 120`, `first_bucket_cap = 60` — the
bucketing step of `compile_fn` produces 2 buckets of cumulative sizes
100 and 200 (front to back), not the claimed 3 buckets of sizes 50,
150, 100. -/
theorem scenario_buckets_cex :
    (buildBuckets gmScenario 120 60).map Bucket.size = [100, 200] ∧
      (buildBuckets gmScenario 120 60).length ≠ 3 ∧
      (buildBuckets gmScenario 120 60).map Bucket.size ≠ [50, 150, 100] := by
  decide

/-- C1 (amended): on the spec's §8 scenario, the bucketing step
produces exactly 2 buckets whose cumulative sizes, front (index 0) to
back, are 100 and 200: since the check precedes the addition, the
150-byte contribution joins the bucket already holding 50 bytes
(50 < first_bucket_cap = 60 at check time), and that bucket is closed
only when the next node is scanned (200 ≥ 120). -/
theorem scenario_buckets_amended :
    (buildBuckets gmScenario 120 60).length = 2 ∧
      (buildBuckets gmScenario 120 60).map Bucket.size = [100, 200] := by
  decide

/-- All member nodes of a bucket list, in scan order: nodes are
appended to the front bucket while fresh buckets are prepended, so the
scan sequence reads the buckets back-to-front. -/
def joinNodes : List Bucket → List FxNode
  | [] => []
  | b :: bs => joinNodes bs ++ b.nodes

theorem mem_joinNodes_of_mem {bs : List Bucket} {b : Bucket} {m : FxNode}
    (hb : b ∈ bs) (hm : m ∈ b.nodes) : m ∈ joinNodes bs := by
  induction bs with
  | nil => cases hb
  | cons b' bs ih =>
      rcases List.mem_cons.mp hb with rfl | hb'
      · exact List.mem_append_right _ hm
      · exact List.mem_append_left _ (ih hb')

theorem bucketStep_ne_nil (gm : FxGraphModule) (cap fc : Nat)
    (bs : List Bucket) (n : FxNode) (hbs : bs ≠ []) :
    bucketStep gm cap fc bs n ≠ [] := by
  unfold bucketStep
  split
  · exact hbs
  · exact List.cons_ne_nil _ _

theorem joinNodes_bucketStep (gm : FxGraphModule) (cap fc : Nat)
    (bs : List Bucket) (n : FxNode) (hbs : bs ≠ []) :
    joinNodes (bucketStep gm cap fc bs n) =
      joinNodes bs ++ if eligibleNode n then [n] else [] := by
  obtain ⟨b, bs', rfl⟩ := List.exists_cons_of_ne_nil hbs
  by_cases hel : n.op = NodeOp.output ∨ n.op = NodeOp.placeholder
  · have : eligibleNode n = false := by
      unfold eligibleNode
      rw [decide_eq_true hel]
      rfl
    rw [this]
    unfold bucketStep
    rw [if_pos hel]
    simp
  · have helig : eligibleNode n = true := by
      unfold eligibleNode
      rw [decide_eq_false hel]
      rfl
    rw [helig]
    have hel' : n.op ≠ NodeOp.output ∧ n.op ≠ NodeOp.placeholder := by tauto
    by_cases hc : closeCond cap fc (b :: bs')
    · rw [(bucketStep_spec gm cap fc (b :: bs') n hel' (List.cons_ne_nil _ _)).2.1 hc]
      simp [joinNodes, processNode_spec, Bucket.empty, List.append_assoc]
    · rw [(bucketStep_spec gm cap fc (b :: bs') n hel' (List.cons_ne_nil _ _)).2.2 hc]
      simp [joinNodes, processNode_spec, List.append_assoc]

theorem joinNodes_foldl (gm : FxGraphModule) (cap fc : Nat) :
    ∀ (l : List FxNode) (bs : List Bucket), bs ≠ [] →
      joinNodes (l.foldl (bucketStep gm cap fc) bs) =
        joinNodes bs ++ l.filter eligibleNode := by
  intro l
  induction l with
  | nil => intro bs _; simp
  | cons n l ih =>
      intro bs hbs
      rw [List.foldl_cons, ih _ (bucketStep_ne_nil gm cap fc bs n hbs),
        joinNodes_bucketStep gm cap fc bs n hbs, List.filter_cons]
      by_cases h : eligibleNode n
      · simp [h, List.append_assoc]
      · simp [h]

theorem joinNodes_buildBuckets (gm : FxGraphModule) (cap fc : Nat) :
    joinNodes (buildBuckets gm cap fc) = gm.nodes.reverse.filter eligibleNode := by
  unfold buildBuckets
  rw [joinNodes_foldl gm cap fc _ _ (List.cons_ne_nil _ _)]
  simp [joinNodes, Bucket.empty]

theorem buildBuckets_ne_nil (gm : FxGraphModule) (cap fc : Nat) :
    buildBuckets gm cap fc ≠ [] := by
  unfold buildBuckets
  have h : ∀ (l : List FxNode) (bs : List Bucket), bs ≠ [] →
      l.foldl (bucketStep gm cap fc) bs ≠ [] := by
    intro l
    induction l with
    | nil => intro bs hbs; exact hbs
    | cons n l ih =>
        intro bs hbs
        exact ih _ (bucketStep_ne_nil gm cap fc bs n hbs)
  exact h _ _ (List.cons_ne_nil _ _)

theorem countP_join_eq_one (nm : String) :
    ∀ bs : List Bucket, ((joinNodes bs).map FxNode.name).Nodup →
      nm ∈ (joinNodes bs).map FxNode.name →
      bs.countP (fun b => decide (nm ∈ b.nodes.map FxNode.name)) = 1 := by
  intro bs
  induction bs with
  | nil => intro _ h; cases h
  | cons b bs ih =>
      intro hnd hmem
      have hsplit : (joinNodes (b :: bs)).map FxNode.name =
          (joinNodes bs).map FxNode.name ++ b.nodes.map FxNode.name := by
        simp [joinNodes]
      rw [hsplit] at hnd hmem
      obtain ⟨h1, h2, hdisj⟩ := List.nodup_append.mp hnd
      rw [List.countP_cons]
      by_cases hb : nm ∈ b.nodes.map FxNode.name
      · have hnot : nm ∉ (joinNodes bs).map FxNode.name := fun hmem' => hdisj hmem' hb
        have hzero : bs.countP (fun b => decide (nm ∈ b.nodes.map FxNode.name)) = 0 := by
          rw [List.countP_eq_zero]
          intro b' hb'
          simp only [decide_eq_true_eq]
          intro hcontra
          obtain ⟨m, hm, hname⟩ := List.mem_map.mp hcontra
          exact hnot (hname ▸ List.mem_map_of_mem FxNode.name
            (mem_joinNodes_of_mem hb' hm))
        rw [hzero]
        simp [hb]
      · have hmem' : nm ∈ (joinNodes bs).map FxNode.name := by
          rcases List.mem_append.mp hmem with h | h
          · exact h
          · exact absurd h hb
        rw [ih h1 hmem']
        simp [hb]

theorem node_coverage_aux (gm : FxGraphModule) (cap fc : Nat)
    (hnames : (gm.nodes.map FxNode.name).Nodup)
    (n : FxNode) (hn : n ∈ gm.nodes) :
    (eligibleNode n →
      (buildBuckets gm cap fc).countP
          (fun b => decide (n.name ∈ b.nodes.map FxNode.name)) = 1) ∧
      (¬eligibleNode n →
        ∀ b ∈ buildBuckets gm cap fc, n.name ∉ b.nodes.map FxNode.name) := by
  have hjoin := joinNodes_buildBuckets gm cap fc
  have hnd : ((joinNodes (buildBuckets gm cap fc)).map FxNode.name).Nodup := by
    rw [hjoin]
    exact ((List.filter_sublist gm.nodes.reverse).map FxNode.name).nodup
      (by rw [List.map_reverse]; exact List.nodup_reverse.mpr hnames)
  constructor
  · intro helig
    apply countP_join_eq_one
    · exact hnd
    · rw [hjoin]
      exact List.mem_map_of_mem FxNode.name
        (List.mem_filter.mpr ⟨List.mem_reverse.mpr hn, helig⟩)
  · intro helig b hb hcontra
    obtain ⟨m, hm, hname⟩ := List.mem_map.mp hcontra
    have hmj : m ∈ joinNodes (buildBuckets gm cap fc) :=
      mem_joinNodes_of_mem hb hm
    rw [hjoin] at hmj
    obtain ⟨hmem, hmelig⟩ := List.mem_filter.mp hmj
    have : m = n :=
      List.inj_on_of_nodup_map hnames (List.mem_reverse.mp hmem) hn hname
    rw [this] at hmelig
    exact helig hmelig

/-- C4: in every graph in which node names are unique (an FX graph
invariant) and for every pair of cap values, each node of the graph
that is neither a placeholder nor an output appears in the member-node
list of exactly one bucket, parameters or not, while placeholder and
output nodes appear in no bucket. -/
theorem node_coverage (gm : FxGraphModule) (cap fc : Nat)
    (hnames : (gm.nodes.map FxNode.name).Nodup)
    (n : FxNode) (hn : n ∈ gm.nodes) :
    (eligibleNode n →
      (buildBuckets gm cap fc).countP
          (fun b => decide (n.name ∈ b.nodes.map FxNode.name)) = 1) ∧
      (¬eligibleNode n →
        ∀ b ∈ buildBuckets gm cap fc, n.name ∉ b.nodes.map FxNode.name) :=
  node_coverage_aux gm cap fc hnames n hn

/-- C4 witness: in the §8 scenario graph, the call-module node `m2`
lies in exactly one bucket and the output node in none. -/
theorem node_coverage_witness :
    (buildBuckets gmScenario 120 60).countP
        (fun b => decide ("m2" ∈ b.nodes.map FxNode.name)) = 1 :=
  (node_coverage gmScenario 120 60 (by decide)
      { name := "m2", op := NodeOp.call_module, target := "m2" }
      (by simp [gmScenario])).1 (by decide)

/-- All parameters the bucketing loop could even look at for one node
(before the grad/exempt filtering), with their qualified names. -/
def nodeAllParams (gm : FxGraphModule) (n : FxNode) : List (String × Param) :=
  match n.op with
  | NodeOp.call_module =>
      (gm.params n.target).map fun np => (n.target ++ "_" ++ np.1, np.2)
  | NodeOp.get_attr => [(n.target, gm.attrs n.target)]
  | _ => []

theorem nodeSyncParams_sub (gm : FxGraphModule) (n : FxNode) {qp : String × Param}
    (h : qp ∈ nodeSyncParams gm n) :
    qp ∈ nodeAllParams gm n ∧ qp.2.requiresGrad = true ∧ ignoreParameter qp.2 = false := by
  cases hop : n.op
  case call_module =>
      simp only [nodeSyncParams, hop] at h
      obtain ⟨np, hnp, rfl⟩ := List.mem_map.mp h
      obtain ⟨hmem, hpred⟩ := List.mem_filter.mp hnp
      obtain ⟨hgrad, hnig⟩ := Bool.and_eq_true_iff.mp hpred
      refine ⟨?_, hgrad, (by simpa using hnig)⟩
      simp only [nodeAllParams, hop]
      exact List.mem_map_of_mem _ hmem
  case get_attr =>
      simp only [nodeSyncParams, hop] at h
      by_cases hc : (gm.attrs n.target).requiresGrad && !ignoreParameter (gm.attrs n.target)
      · rw [if_pos hc] at h
        obtain ⟨hgrad, hnig⟩ := Bool.and_eq_true_iff.mp hc
        rcases List.mem_singleton.mp h with rfl
        refine ⟨?_, hgrad, (by simpa using hnig)⟩
        simp [nodeAllParams, hop]
      · rw [if_neg hc] at h
        cases h
  all_goals simp [nodeSyncParams, hop] at h

/-- The bookkeeping invariant of a bucket: its cumulative size and its
recorded names and identities are exactly the accumulation, over its
member nodes in order, of each node's grad-requiring non-exempt
parameters. -/
def bucketAccounted (gm : FxGraphModule) (b : Bucket) : Prop :=
  b.size = (b.nodes.map fun m => nodeContrib gm m).sum ∧
    b.params = b.nodes.flatMap (fun m => (nodeSyncParams gm m).map Prod.fst) ∧
    b.param_ids = b.nodes.flatMap fun m => (nodeSyncParams gm m).map fun q => q.2.pid

theorem bucketAccounted_empty (gm : FxGraphModule) :
    bucketAccounted gm Bucket.empty := by
  simp [bucketAccounted, Bucket.empty]

theorem bucketAccounted_default (gm : FxGraphModule) :
    bucketAccounted gm default := bucketAccounted_empty gm

theorem bucketAccounted_processNode (gm : FxGraphModule) {b : Bucket}
    (h : bucketAccounted gm b) (n : FxNode) :
    bucketAccounted gm (processNode gm b n) := by
  obtain ⟨h1, h2, h3⟩ := h
  rw [processNode_spec]
  refine ⟨?_, ?_, ?_⟩
  · simp [h1, List.map_append, List.sum_append]
  · simp [h2, List.flatMap_append]
  · simp [h3, List.flatMap_append]

theorem bucketAccounted_step (gm : FxGraphModule) (cap fc : Nat)
    {bs : List Bucket} (hbs : ∀ b ∈ bs, bucketAccounted gm b) (n : FxNode) :
    ∀ b ∈ bucketStep gm cap fc bs n, bucketAccounted gm b := by
  intro b' hb'
  have hhead : bucketAccounted gm (bs.headD default) := by
    cases bs with
    | nil => exact bucketAccounted_default gm
    | cons b bs => exact hbs b (List.mem_cons_self _ _)
  unfold bucketStep at hb'
  split at hb'
  · exact hbs b' hb'
  · split at hb'
    · rcases List.mem_cons.mp hb' with rfl | hb''
      · exact bucketAccounted_processNode gm (bucketAccounted_empty gm) n
      · exact hbs b' hb''
    · rcases List.mem_cons.mp hb' with rfl | hb''
      · exact bucketAccounted_processNode gm hhead n
      · exact hbs b' ((List.tail_sublist bs).subset hb'')

theorem buckets_accounted (gm : FxGraphModule) (cap fc : Nat) :
    ∀ b ∈ buildBuckets gm cap fc, bucketAccounted gm b := by
  unfold buildBuckets
  have h : ∀ (l : List FxNode) (bs : List Bucket),
      (∀ b ∈ bs, bucketAccounted gm b) →
      ∀ b ∈ l.foldl (bucketStep gm cap fc) bs, bucketAccounted gm b := by
    intro l
    induction l with
    | nil => intro bs hbs; exact hbs
    | cons n l ih =>
        intro bs hbs
        exact ih _ (bucketAccounted_step gm cap fc hbs n)
  refine h _ _ ?_
  intro b hb
  rcases List.mem_singleton.mp hb with rfl
  exact bucketAccounted_empty gm

theorem bucket_nodes_mem (gm : FxGraphModule) (cap fc : Nat) :
    ∀ b ∈ buildBuckets gm cap fc, ∀ m ∈ b.nodes,
      m ∈ gm.nodes ∧ eligibleNode m = true := by
  intro b hb m hm
  have hmj : m ∈ joinNodes (buildBuckets gm cap fc) := mem_joinNodes_of_mem hb hm
  rw [joinNodes_buildBuckets] at hmj
  obtain ⟨hmem, helig⟩ := List.mem_filter.mp hmj
  exact ⟨List.mem_reverse.mp hmem, helig⟩

/-- C5: a sync-exempt parameter (exempt marker present and true) of a
call-module node: its byte size is never part of any bucket's
cumulative size (every bucket's size is exactly the accumulated
non-exempt contributions of its nodes), its identity and qualified name
are never recorded in any bucket, yet its owning node still lies in
exactly one bucket's member-node list.  Identity resolution (`id()` in
Python) is expressed by the hypotheses that no distinct parameter
object shares `p`'s identity or its qualified name. -/
theorem sync_exempt_param (gm : FxGraphModule) (cap fc : Nat) (p : Param)
    (pname : String) (n : FxNode)
    (hn : n ∈ gm.nodes) (hop : n.op = NodeOp.call_module)
    (_hp : (pname, p) ∈ gm.params n.target) (hig : ignoreParameter p = true)
    (hnames : (gm.nodes.map FxNode.name).Nodup)
    (hpid : ∀ m ∈ gm.nodes, ∀ qp ∈ nodeAllParams gm m, qp.2.pid = p.pid → qp.2 = p)
    (hqn : ∀ m ∈ gm.nodes, ∀ qp ∈ nodeAllParams gm m,
      qp.1 = n.target ++ "_" ++ pname → qp.2 = p) :
    (∀ b ∈ buildBuckets gm cap fc,
        p.pid ∉ b.param_ids ∧ (n.target ++ "_" ++ pname) ∉ b.params ∧
          b.size = (b.nodes.map fun m => nodeContrib gm m).sum) ∧
      (buildBuckets gm cap fc).countP
          (fun b => decide (n.name ∈ b.nodes.map FxNode.name)) = 1 := by
  constructor
  · intro b hb
    obtain ⟨hsz, hpr, hid⟩ := buckets_accounted gm cap fc b hb
    refine ⟨?_, ?_, hsz⟩
    · intro hmem
      rw [hid] at hmem
      obtain ⟨m, hm, hmem2⟩ := List.mem_flatMap.mp hmem
      obtain ⟨qp, hqp, hpeq⟩ := List.mem_map.mp hmem2
      obtain ⟨hall, _, hnig⟩ := nodeSyncParams_sub gm m hqp
      have heq := hpid m (bucket_nodes_mem gm cap fc b hb m hm).1 qp hall hpeq
      rw [heq, hig] at hnig
      exact Bool.true_eq_false ▸ hnig
    · intro hmem
      rw [hpr] at hmem
      obtain ⟨m, hm, hmem2⟩ := List.mem_flatMap.mp hmem
      obtain ⟨qp, hqp, hpeq⟩ := List.mem_map.mp hmem2
      obtain ⟨hall, _, hnig⟩ := nodeSyncParams_sub gm m hqp
      have heq := hqn m (bucket_nodes_mem gm cap fc b hb m hm).1 qp hall hpeq
      rw [heq, hig] at hnig
      exact Bool.true_eq_false ▸ hnig
  · have helig : eligibleNode n = true := by
      unfold eligibleNode
      rw [hop]
      rfl
    exact (node_coverage_aux gm cap fc hnames n hn).1 helig

-- Concrete graph exercising the sync-exempt path: one call-module
-- node whose only parameter carries `_ddp_ignored = True`.
def pExempt : Param :=
  { numel := 40, itemsize := 1, requiresGrad := true, ddpIgnored := some true, pid := 7 }

def gmExempt : FxGraphModule where
  nodes :=
    [ { name := "x", op := NodeOp.placeholder, target := "x" },
      { name := "e", op := NodeOp.call_module, target := "E" },
      { name := "out", op := NodeOp.output, target := "output" } ]
  params := fun t => if t = "E" then [("w", pExempt)] else []
  attrs := fun _ => paramOf 0 0

/-- C5 witness: in the concrete exempt-parameter graph, the owning
node `e` still lands in exactly one bucket. -/
theorem sync_exempt_param_witness :
    (buildBuckets gmExempt 25 25).countP
        (fun b => decide ("e" ∈ b.nodes.map FxNode.name)) = 1 :=
  (sync_exempt_param gmExempt 25 25 pExempt "w"
      { name := "e", op := NodeOp.call_module, target := "E" }
      (by simp [gmExempt]) rfl (by decide) (by decide) (by decide)
      (by decide) (by decide)).2

/-- A bucket's size stays within `cap'` plus the total contribution of
the last node appended to it (the capacity check runs once per node,
before the node's parameters are added). -/
def bucketWithinCap (gm : FxGraphModule) (cap' : Nat) (b : Bucket) : Prop :=
  b.size = 0 ∨ ∃ n, b.nodes.getLast? = some n ∧ b.size ≤ cap' + nodeContrib gm n

/-- The overshoot invariant carried through the scan: every bucket
except the back one (which was filled while it was the only bucket, so
both caps applied) is bounded by `bucket_bytes_cap` plus one node's
contribution; the back one by `min bucket_bytes_cap first_bucket_cap`
plus one node's contribution. -/
def bucketsWithinCap (gm : FxGraphModule) (cap fc : Nat) (bs : List Bucket) : Prop :=
  (∀ b ∈ bs.dropLast, bucketWithinCap gm cap b) ∧
    ∀ b, bs.getLast? = some b → bucketWithinCap gm (min cap fc) b

theorem bucketWithinCap_processNode_of_lt (gm : FxGraphModule) {cap' : Nat}
    {b : Bucket} (h : b.size < cap') (n : FxNode) :
    bucketWithinCap gm cap' (processNode gm b n) := by
  refine Or.inr ⟨n, ?_, ?_⟩
  · rw [processNode_spec]
    exact List.getLast?_concat _
  · rw [processNode_spec]
    exact Nat.add_le_add_right (Nat.le_of_lt h) _

theorem bucketWithinCap_processNode_empty (gm : FxGraphModule) (cap' : Nat)
    (n : FxNode) : bucketWithinCap gm cap' (processNode gm Bucket.empty n) := by
  refine Or.inr ⟨n, ?_, ?_⟩
  · rw [processNode_spec]
    exact List.getLast?_concat _
  · rw [processNode_spec]
    show Bucket.empty.size + nodeContrib gm n ≤ cap' + nodeContrib gm n
    exact Nat.add_le_add_right (Nat.zero_le _) _

theorem bucketsWithinCap_step (gm : FxGraphModule) (cap fc : Nat)
    {bs : List Bucket} (hbs : bs ≠ []) (hinv : bucketsWithinCap gm cap fc bs)
    (n : FxNode) : bucketsWithinCap gm cap fc (bucketStep gm cap fc bs n) := by
  obtain ⟨b0, bs', rfl⟩ := List.exists_cons_of_ne_nil hbs
  by_cases hel : n.op = NodeOp.output ∨ n.op = NodeOp.placeholder
  · unfold bucketStep
    rw [if_pos hel]
    exact hinv
  · have hel' : n.op ≠ NodeOp.output ∧ n.op ≠ NodeOp.placeholder := by tauto
    obtain ⟨hdrop, hlast⟩ := hinv
    by_cases hc : closeCond cap fc (b0 :: bs')
    · rw [(bucketStep_spec gm cap fc (b0 :: bs') n hel' (List.cons_ne_nil _ _)).2.1 hc]
      constructor
      · intro b hb
        rw [List.dropLast_cons₂] at hb
        rcases List.mem_cons.mp hb with rfl | hb'
        · exact bucketWithinCap_processNode_empty gm cap n
        · cases bs' with
          | nil =>
              rw [List.dropLast_single] at hb'
              cases hb'
          | cons b1 rest =>
              exact hdrop b (by rwa [List.dropLast_cons₂])
      · intro b hb
        rw [List.getLast?_cons_cons] at hb
        exact hlast b hb
    · rw [(bucketStep_spec gm cap fc (b0 :: bs') n hel' (List.cons_ne_nil _ _)).2.2 hc]
      simp only [List.headD_cons, List.tail_cons]
      have hnot := hc
      unfold closeCond at hnot
      push_neg at hnot
      simp only [List.headD_cons, List.length_cons, not_le] at hnot
      obtain ⟨hlt_cap, hone⟩ := hnot
      cases bs' with
      | nil =>
          have hlt_fc : b0.size < fc := hone (by simp)
          constructor
          · intro b hb
            rw [List.dropLast_single] at hb
            cases hb
          · intro b hb
            rcases Option.some.inj ((List.getLast?_singleton _).symm.trans hb) with rfl
            exact bucketWithinCap_processNode_of_lt gm
              (Nat.lt_min.mpr ⟨hlt_cap, hlt_fc⟩) n
      | cons b1 rest =>
          constructor
          · intro b hb
            rw [List.dropLast_cons₂] at hb
            rcases List.mem_cons.mp hb with rfl | hb'
            · exact bucketWithinCap_processNode_of_lt gm hlt_cap n
            · refine hdrop b ?_
              rw [List.dropLast_cons₂]
              exact List.mem_cons_of_mem _ hb'
          · intro b hb
            rw [List.getLast?_cons_cons] at hb
            exact hlast b (by rwa [List.getLast?_cons_cons])

/-- C3 (counterexample): with both caps 10, a call-module node owning
parameters of 9, 2 and 50 bytes drives the first bucket to 61 bytes —
the capacity check runs only once per node, before its parameters are
added — so the back bucket (not the last-scanned one, which is the
front bucket of size 0) exceeds the applicable cap by 51, more than the
byte size of any single parameter in it, whichever parameter is taken
to have triggered closure. -/
theorem overshoot_cex :
    (buildBuckets gmMultiParam 10 10).map Bucket.size = [0, 61] ∧
      ((gmMultiParam.params "A").map fun np => np.2.storageNBytes) = [9, 2, 50] ∧
      10 + 9 < 61 ∧ 10 + 2 < 61 ∧ 10 + 50 < 61 := by
  decide

/-- C3 (amended): after the bucketing step, every bucket — front one
included — exceeds its applicable cap (`bucket_bytes_cap` in general;
`min bucket_bytes_cap first_bucket_cap` for the back bucket, which was
filled while it was the only bucket) by no more than the total
synchronizable-parameter byte contribution of the last node appended to
it: capacity is checked once per node before its parameters are added,
so the bound is one node's whole contribution, not one parameter's
size. -/
theorem bucket_overshoot (gm : FxGraphModule) (cap fc : Nat) :
    (∀ b ∈ (buildBuckets gm cap fc).dropLast, bucketWithinCap gm cap b) ∧
      ∀ b, (buildBuckets gm cap fc).getLast? = some b →
        bucketWithinCap gm (min cap fc) b := by
  have h : ∀ (l : List FxNode) (bs : List Bucket), bs ≠ [] →
      bucketsWithinCap gm cap fc bs →
      bucketsWithinCap gm cap fc (l.foldl (bucketStep gm cap fc) bs) := by
    intro l
    induction l with
    | nil => intro bs _ hinv; exact hinv
    | cons n l ih =>
        intro bs hbs hinv
        exact ih _ (bucketStep_ne_nil gm cap fc bs n hbs)
          (bucketsWithinCap_step gm cap fc hbs hinv n)
  have hinit : bucketsWithinCap gm cap fc [Bucket.empty] := by
    constructor
    · intro b hb
      rw [List.dropLast_single] at hb
      cases hb
    · intro b hb
      rcases Option.some.inj ((List.getLast?_singleton _).symm.trans hb) with rfl
      exact Or.inl rfl
  exact h _ _ (List.cons_ne_nil _ _) hinit

/-- C3 witness: in the multi-parameter counterexample graph the back
bucket holds 61 bytes and its last (only) node contributes 61 bytes, so
the amended bound `61 ≤ min 10 10 + 61` holds. -/
theorem bucket_overshoot_witness :
    bucketWithinCap gmMultiParam (min 10 10)
      { size := 61, params := ["A_p", "A_q", "A_r"], param_ids := [1, 2, 3],
        nodes := [{ name := "a", op := NodeOp.call_module, target := "A" }] } :=
  (bucket_overshoot gmMultiParam 10 10).2 _ rfl

/-- A Python exception as the compile pipeline can raise it: an
`AssertionError` with its message, an `IndexError` (from `sn.args[0]`
on an empty tuple), or whatever the opaque backend compiler raises. -/
inductive Err where
  | assertionError : String → Err
  | indexError : Err
  | backendError : Nat → Err
deriving DecidableEq, Repr

/-- A runtime value flowing through compiled callables: a tensor
(opaque identity), an integer, a tuple, or a list. -/
inductive Value where
  | tensor : Nat → Value
  | intVal : Int → Value
  | tup : List Value → Value
  | list : List Value → Value

/-- An opaque compiled callable returned by the backend compiler. -/
def Compiled := List Value → Value

/-- The user/backend compiler function (`self.backend_compile_fn` /
`self.compiler`): a black box that either returns a compiled callable
or raises. -/
def Backend := FxGraphModule → List Value → Except Err Compiled

/-- The `WrapperModule` installed for each compiled partition: the
compiled submodule and the recorded need to unwrap a singleton
container. -/
structure WrapperModule where
  submod : Compiled
  unwrap_singleton_tuple : Bool

/-- `WrapperModule.forward`: call the compiled submodule; if unwrapping
was recorded and the result is a tuple or list, return its first
element (`x[0]`, an `IndexError` on an empty container), else return
the result unchanged. -/
def WrapperModule.forward (w : WrapperModule) (args : List Value) : Except Err Value :=
  let x := w.submod args
  match w.unwrap_singleton_tuple, x with
  | true, Value.tup (v :: _) => Except.ok v
  | true, Value.list (v :: _) => Except.ok v
  | true, Value.tup [] => Except.error Err.indexError
  | true, Value.list [] => Except.error Err.indexError
  | _, _ => Except.ok x

/-- The per-node step of the output-normalization loop in
`compile_submod`: on an output node, if `sn.args[0]` is not a tuple,
latch the unwrap flag and replace the node's args by the one-element
tuple `(sn.args,)`; other nodes pass through with the flag unchanged. -/
def wrapOutputNode (st : Bool) (n : FxNode) : Except Err (Bool × FxNode) :=
  if n.op = NodeOp.output then
    match n.args with
    | [] => Except.error Err.indexError
    | Arg.tup _ :: _ => Except.ok (st, n)
    | _ :: _ => Except.ok (true, { n with args := [Arg.tup n.args] })
  else Except.ok (st, n)

/-- Thread the output-normalization step over a node list in order,
latching the unwrap flag. -/
def wrapOutputList (st : Bool) : List FxNode → Except Err (Bool × List FxNode)
  | [] => Except.ok (st, [])
  | n :: ns =>
      match wrapOutputNode st n with
      | Except.error e => Except.error e
      | Except.ok sn =>
          match wrapOutputList sn.1 ns with
          | Except.error e => Except.error e
          | Except.ok rest => Except.ok (rest.1, sn.2 :: rest.2)

/-- The output-normalization loop of `compile_submod` over
`input_mod.graph.nodes`, returning the latched
`unwrap_singleton_tuple` flag and the rewritten module. -/
def wrapOutputs (m : FxGraphModule) : Except Err (Bool × FxGraphModule) :=
  match wrapOutputList false m.nodes with
  | Except.error e => Except.error e
  | Except.ok r => Except.ok (r.1, { m with nodes := r.2 })

/-- `SubmodCompiler.compile_submod`: assert no kwargs, normalize the
submodule's output to a tuple, hand the rewritten module to the backend
compiler, and wrap the compiled callable together with the recorded
unwrap flag. -/
def compile_submod (backend : Backend) (input_mod : FxGraphModule)
    (args : List Value) (kwargs : List (String × Value)) : Except Err WrapperModule :=
  if kwargs.length = 0 then
    match wrapOutputs input_mod with
    | Except.error e => Except.error e
    | Except.ok um =>
        match backend um.2 args with
        | Except.error e => Except.error e
        | Except.ok c => Except.ok { submod := c, unwrap_singleton_tuple := um.1 }
  else Except.error (Err.assertionError "We assume only args for these modules")

/-- `SubmodCompiler.run_node` on a `call_module` boundary node: compile
the real submodule (installing the wrapper), assert again that no
kwargs are present, then continue with a shape-only simulation of the
original submodule.  The simulation of `fake_submod(*new_args)`
(fake-tensor machinery external to this file's sources) is the abstract
parameter `sim`. -/
def run_node (backend : Backend) (sim : FxGraphModule → List Value → List Value)
    (submod : FxGraphModule) (args : List Value) (kwargs : List (String × Value)) :
    Except Err (WrapperModule × List Value) :=
  match compile_submod backend submod args kwargs with
  | Except.error e => Except.error e
  | Except.ok w =>
      if kwargs.isEmpty then Except.ok (w, sim submod args)
      else Except.error (Err.assertionError "assert not kwargs")

/-- The boundary-node pipeline with both kwargs assertions removed:
normalize outputs, invoke the backend, install the wrapper, simulate. -/
def run_node_unchecked (backend : Backend)
    (sim : FxGraphModule → List Value → List Value)
    (submod : FxGraphModule) (args : List Value) :
    Except Err (WrapperModule × List Value) :=
  match wrapOutputs submod with
  | Except.error e => Except.error e
  | Except.ok um =>
      match backend um.2 args with
      | Except.error e => Except.error e
      | Except.ok c =>
          Except.ok ({ submod := c, unwrap_singleton_tuple := um.1 }, sim submod args)

/-- The interpreter walk (`SubmodCompiler.run`) over the partition
boundary submodules in execution order: each boundary call carries no
kwargs (the split primitive emits plain positional calls), each
partition is compiled via `run_node`, and the first raised exception
aborts the walk. -/
def runSubmods (backend : Backend) (sim : FxGraphModule → List Value → List Value) :
    List FxGraphModule → List Value → Except Err (List WrapperModule × List Value)
  | [], env => Except.ok ([], env)
  | m :: ms, env =>
      match run_node backend sim m env [] with
      | Except.error e => Except.error e
      | Except.ok r =>
          match runSubmods backend sim ms r.2 with
          | Except.error e => Except.error e
          | Except.ok rest => Except.ok (r.1 :: rest.1, rest.2)

/-- Modelled from the spec: `fx.passes.split_module.split_module` is
not among these sources; per §4.2 it produces one submodule per bucket,
its numerical semantics unchanged.  Execution order is reverse bucket
order (the back bucket holds the earliest forward nodes), and each
submodule ends in an output node returning its single result. -/
def splitModule (gm : FxGraphModule) (buckets : List Bucket) : List FxGraphModule :=
  buckets.reverse.map fun b =>
    { nodes := b.nodes.reverse ++
        [{ name := "output", op := NodeOp.output, target := "output",
           args := [Arg.node "out"] }]
      params := gm.params
      attrs := gm.attrs }

/-- What `compile_fn` returns: in the single-bucket case, the backend's
result on the whole graph, unchanged; otherwise the fused split module
with its compiled-and-wrapped partitions. -/
inductive CompileOutput where
  | compiled : Compiled → CompileOutput
  | fused : List WrapperModule → CompileOutput

/-- `DDPOptimizer.compile_fn`: build the buckets; if exactly one
bucket resulted, return the backend's result on the whole original
graph directly; otherwise split per bucket and run the submodule
compiler walk over the partitions. -/
def compileFn (gm : FxGraphModule) (cap fc : Nat) (backend : Backend)
    (sim : FxGraphModule → List Value → List Value) (exampleInputs : List Value) :
    Except Err CompileOutput :=
  let buckets := buildBuckets gm cap fc
  if buckets.length = 1 then
    (backend gm exampleInputs).map CompileOutput.compiled
  else
    (runSubmods backend sim (splitModule gm buckets) exampleInputs).map
      fun r => CompileOutput.fused r.1

/-- C7: if bucketing yields exactly one bucket, `compile_fn` returns
exactly the backend compiler's result on the whole original graph with
the original example inputs — no partitioning, no interpreter walk, no
rewriting. -/
theorem single_bucket_shortcut (gm : FxGraphModule) (cap fc : Nat)
    (backend : Backend) (sim : FxGraphModule → List Value → List Value)
    (ex : List Value) (h : (buildBuckets gm cap fc).length = 1) :
    compileFn gm cap fc backend sim ex = (backend gm ex).map CompileOutput.compiled := by
  unfold compileFn
  rw [if_pos h]

def backendOkW : Backend := fun _ _ => Except.ok fun _ => Value.tup []

def simIdW : FxGraphModule → List Value → List Value := fun _ env => env

/-- C7 witness: the single-call-module graph with caps 25/25 yields one
bucket, and `compile_fn` returns the backend's whole-graph result. -/
theorem single_bucket_shortcut_witness :
    compileFn gmExempt 25 25 backendOkW simIdW [] =
      (backendOkW gmExempt []).map CompileOutput.compiled :=
  single_bucket_shortcut gmExempt 25 25 backendOkW simIdW [] (by decide)

theorem wrapOutputNode_non_output {st : Bool} {n : FxNode}
    (h : n.op ≠ NodeOp.output) : wrapOutputNode st n = Except.ok (st, n) := by
  unfold wrapOutputNode
  rw [if_neg h]

theorem wrapOutputList_append_single (pre : List FxNode)
    (hpre : ∀ n ∈ pre, n.op ≠ NodeOp.output) (outNode : FxNode) :
    ∀ st : Bool, wrapOutputList st (pre ++ [outNode]) =
      match wrapOutputNode st outNode with
      | Except.error e => Except.error e
      | Except.ok sn => Except.ok (sn.1, pre ++ [sn.2]) := by
  induction pre with
  | nil =>
      intro st
      show wrapOutputList st [outNode] = _
      unfold wrapOutputList
      cases h : wrapOutputNode st outNode with
      | error e => simp
      | ok sn => simp [wrapOutputList]
  | cons n pre ih =>
      intro st
      have hn : n.op ≠ NodeOp.output := hpre n (List.mem_cons_self _ _)
      show wrapOutputList st (n :: (pre ++ [outNode])) = _
      unfold wrapOutputList
      rw [wrapOutputNode_non_output hn]
      dsimp only
      rw [ih (fun m hm => hpre m (List.mem_cons_of_mem _ hm)) st]
      cases h : wrapOutputNode st outNode with
      | error e => simp
      | ok sn => simp

/-- C8: for a partition whose subgraph declares a single non-tuple
output, `compile_submod` hands the backend a module whose output is
wrapped in a one-element tuple, records the unwrap need in the wrapper,
and the installed wrapper returns the single underlying value (not a
one-element container) on every invocation whose compiled output is the
contractual one-element tuple (or list). -/
theorem singleton_output_unwrap (backend : Backend) (input_mod : FxGraphModule)
    (args : List Value) (pre : List FxNode) (outNode : FxNode) (a : Arg)
    (c : Compiled)
    (hsplit : input_mod.nodes = pre ++ [outNode])
    (hpre : ∀ n ∈ pre, n.op ≠ NodeOp.output)
    (hop : outNode.op = NodeOp.output)
    (hargs : outNode.args = [a])
    (hnt : ∀ l, a ≠ Arg.tup l)
    (hc : backend { input_mod with
        nodes := pre ++ [{ outNode with args := [Arg.tup [a]] }] } args =
      Except.ok c) :
    compile_submod backend input_mod args [] =
        Except.ok { submod := c, unwrap_singleton_tuple := true } ∧
      ∀ vals v, (c vals = Value.tup [v] ∨ c vals = Value.list [v]) →
        WrapperModule.forward { submod := c, unwrap_singleton_tuple := true } vals =
          Except.ok v := by
  have hwnode : wrapOutputNode false outNode =
      Except.ok (true, { outNode with args := [Arg.tup [a]] }) := by
    unfold wrapOutputNode
    rw [if_pos hop, hargs]
    cases a with
    | node s => rfl
    | litInt i => rfl
    | tup l => exact absurd rfl (hnt l)
  have hwraps : wrapOutputs input_mod =
      Except.ok (true, { input_mod with
        nodes := pre ++ [{ outNode with args := [Arg.tup [a]] }] }) := by
    unfold wrapOutputs
    rw [hsplit, wrapOutputList_append_single pre hpre outNode false, hwnode]
  constructor
  · unfold compile_submod
    rw [if_pos (by rfl), hwraps]
    dsimp only
    rw [hc]
  · intro vals v hv
    rcases hv with h | h <;> simp [WrapperModule.forward, h]

def modW8 : FxGraphModule where
  nodes :=
    [ { name := "x", op := NodeOp.placeholder, target := "x" },
      { name := "out", op := NodeOp.output, target := "output",
        args := [Arg.node "x"] } ]
  params := fun _ => []
  attrs := fun _ => paramOf 0 0

def cW8 : Compiled := fun _ => Value.tup [Value.tensor 0]

def backendW8 : Backend := fun _ _ => Except.ok cW8

/-- C8 witness: compiling a concrete single-output submodule records
the unwrap flag, and the wrapper unwraps the backend's singleton tuple
to the bare tensor. -/
theorem singleton_output_unwrap_witness :
    compile_submod backendW8 modW8 [] [] =
        Except.ok { submod := cW8, unwrap_singleton_tuple := true } ∧
      WrapperModule.forward { submod := cW8, unwrap_singleton_tuple := true }
          [Value.tensor 5] = Except.ok (Value.tensor 0) :=
  have h := singleton_output_unwrap backendW8 modW8 []
    [{ name := "x", op := NodeOp.placeholder, target := "x" }]
    { name := "out", op := NodeOp.output, target := "output",
      args := [Arg.node "x"] }
    (Arg.node "x") cW8 rfl
    (fun n hn => by
      rcases List.mem_singleton.mp hn with rfl
      simp)
    rfl rfl (fun l h => Arg.noConfusion h) rfl
  ⟨h.1, h.2 [Value.tensor 5] (Value.tensor 0) (Or.inl rfl)⟩

/-- C10: a partition-boundary call carrying a keyword argument aborts
compilation with the assertion failure raised before the backend is
ever invoked; under the no-kwargs precondition both assertion branches
are unreachable and `run_node` equals the same pipeline with the
asserts removed. -/
theorem boundary_kwargs_assert (backend : Backend)
    (sim : FxGraphModule → List Value → List Value) (submod : FxGraphModule)
    (args : List Value) (kwargs : List (String × Value)) :
    (kwargs ≠ [] →
      run_node backend sim submod args kwargs =
        Except.error (Err.assertionError "We assume only args for these modules")) ∧
      (kwargs = [] →
        run_node backend sim submod args kwargs =
          run_node_unchecked backend sim submod args) := by
  constructor
  · intro hne
    have hlen : ¬kwargs.length = 0 := by
      simpa using hne
    unfold run_node compile_submod
    rw [if_neg hlen]
  · rintro rfl
    unfold run_node compile_submod run_node_unchecked
    rw [if_pos (by rfl)]
    cases h1 : wrapOutputs submod with
    | error e => rfl
    | ok um =>
        dsimp only
        cases h2 : backend um.2 args with
        | error e => rfl
        | ok c => rfl

def kwW : List (String × Value) := [("k", Value.intVal 0)]

/-- C10 witness: a concrete boundary call with one kwarg fails the
assertion, and the same call without kwargs equals the assert-free
pipeline. -/
theorem boundary_kwargs_assert_witness :
    run_node backendOkW simIdW modW8 [] kwW =
        Except.error (Err.assertionError "We assume only args for these modules") ∧
      run_node backendOkW simIdW modW8 [] [] =
        run_node_unchecked backendOkW simIdW modW8 [] :=
  ⟨(boundary_kwargs_assert backendOkW simIdW modW8 [] kwW).1
      (List.cons_ne_nil _ _),
    (boundary_kwargs_assert backendOkW simIdW modW8 [] []).2 rfl⟩

theorem runSubmods_prefix_error (backend : Backend)
    (sim : FxGraphModule → List Value → List Value) :
    ∀ (pre : List FxGraphModule) (m : FxGraphModule) (post : List FxGraphModule)
      (env env1 : List Value) (ws : List WrapperModule) (e : Err),
      runSubmods backend sim pre env = Except.ok (ws, env1) →
      run_node backend sim m env1 [] = Except.error e →
      runSubmods backend sim (pre ++ m :: post) env = Except.error e := by
  intro pre
  induction pre with
  | nil =>
      intro m post env env1 ws e hpre hfail
      have h := Except.ok.inj hpre
      have henv : env = env1 := congrArg Prod.snd h
      subst henv
      rw [List.nil_append]
      unfold runSubmods
      rw [hfail]
  | cons m0 pre ih =>
      intro m post env env1 ws e hpre hfail
      rw [List.cons_append]
      unfold runSubmods at hpre ⊢
      cases h0 : run_node backend sim m0 env [] with
      | error e0 =>
          rw [h0] at hpre
          cases hpre
      | ok r0 =>
          rw [h0] at hpre
          dsimp only at hpre
          cases h1 : runSubmods backend sim pre r0.2 with
          | error e1 =>
              rw [h1] at hpre
              cases hpre
          | ok r1 =>
              rw [h1] at hpre
              have henv : r1.2 = env1 := congrArg Prod.snd (Except.ok.inj hpre)
              dsimp only
              rw [ih m post r0.2 env1 r1.1 e (by rw [← henv]; exact h1) hfail]

/-- C9: if the backend compiler raises while compiling any one
partition (all earlier partitions of the walk having compiled fine),
that exception propagates unchanged out of `compile_fn`: there is no
per-partition catch, retry, or fallback, and the whole compilation
attempt is aborted. -/
theorem backend_failure_propagates (gm : FxGraphModule) (cap fc : Nat)
    (backend : Backend) (sim : FxGraphModule → List Value → List Value)
    (ex : List Value) (pre post : List FxGraphModule) (m : FxGraphModule)
    (ws : List WrapperModule) (env1 : List Value) (u : Bool)
    (mod2 : FxGraphModule) (e : Err)
    (hlen : (buildBuckets gm cap fc).length ≠ 1)
    (hsplit : splitModule gm (buildBuckets gm cap fc) = pre ++ m :: post)
    (hpre : runSubmods backend sim pre ex = Except.ok (ws, env1))
    (hwrap : wrapOutputs m = Except.ok (u, mod2))
    (hfail : backend mod2 env1 = Except.error e) :
    compileFn gm cap fc backend sim ex = Except.error e := by
  have hrn : run_node backend sim m env1 [] = Except.error e := by
    unfold run_node compile_submod
    rw [if_pos (by rfl), hwrap]
    dsimp only
    rw [hfail]
  have hall := runSubmods_prefix_error backend sim pre m post ex env1 ws e hpre hrn
  unfold compileFn
  rw [if_neg hlen, hsplit, hall]
  rfl

def backendFailW : Backend := fun _ _ => Except.error (Err.backendError 7)

/-- C9 witness: on the two-bucket §8 scenario graph, a backend that
raises on the very first partition makes `compile_fn` return that same
exception. -/
theorem backend_failure_propagates_witness :
    compileFn gmScenario 120 60 backendFailW simIdW [] =
      Except.error (Err.backendError 7) :=
  backend_failure_propagates gmScenario 120 60 backendFailW simIdW [] []
    ((splitModule gmScenario (buildBuckets gmScenario 120 60)).tail)
    ((splitModule gmScenario (buildBuckets gmScenario 120 60)).headD
      { nodes := [], params := gmScenario.params, attrs := gmScenario.attrs })
    [] [] true _ (Err.backendError 7)
    (by decide) rfl rfl rfl rfl
